import Mathlib

/-!
Verification of the acnportal event-generation spec.

The event generator (`StochasticEvents.generate_events`) and the training-data
extractor (`StochasticEvents.extract_training_data`) are modelled from the
design spec, with the concrete behavior pinned by the unit tests in
`src/acnportal/acnsim/events/tests/test_stochastic_events.py`.
The gym algorithm wrappers are embedded directly from
`src/acnportal/algorithms/open_ai_algorithms.py`.

All continuous quantities (hours, kWh, kW) are rationals; timestamps are
rationals of the form `floor + day * periods_per_day` as the spec prescribes.
-/

namespace ACN

/-- Modelled from the spec: `periods_per_hour = 60 / period_minutes` (spec section 3). -/
def periodsPerHour (period : ℚ) : ℚ := 60 / period

/-- Modelled from the spec: `periods_per_day = 24 * periods_per_hour` (spec section 3). -/
def periodsPerDay (period : ℚ) : ℚ := 24 * periodsPerHour period

/-- Modelled from the spec: the vehicle session descriptor (EV) produced by the
generator, carrying arrival and departure timestamps in periods, the
post-correction requested energy, the maximum charging power passthrough and
the global session and station labels (spec section 3). The owned battery
sub-entity is represented by the energy it must supply. -/
structure EV where
  arrival : ℚ
  departure : ℚ
  requested_energy : ℚ
  maximum_charging_power : ℚ
  session_id : String
  station_id : String
  battery_energy : ℚ
deriving DecidableEq, Inhabited

/-- Modelled from the spec: optional duration capping, `duration_hours` is
replaced by `min(duration_hours, max_len)` when `max_len` is supplied
(spec section 4.1 step c, first bullet). -/
def capDuration (max_len : Option ℚ) (d : ℚ) : ℚ :=
  match max_len with
  | none => d
  | some m => min d m

/-- Modelled from the spec: optional feasibility capping, `energy_kWh` is
replaced by `min(energy_kWh, max_battery_power * duration_hours)` when
`force_feasible` is requested, using the already-capped duration
(spec section 4.1 step c, second bullet). -/
def capEnergy (force_feasible : Bool) (maxP d e : ℚ) : ℚ :=
  if force_feasible then min e (maxP * d) else e

/-- Modelled from the spec: conversion of one raw session triple (one row of
the sampled batch, fields in order arrival hour, duration hours, energy kWh)
into an EV, for day index `day` and global session counter `i`
(spec section 4.1 step c). The row-per-session reading of the batch is the
one pinned by the unit tests. -/
def convertSession (period maxP : ℚ) (max_len : Option ℚ) (force_feasible : Bool)
    (day i : ℕ) (row : List ℚ) : EV :=
  let a := row.getD 0 0
  let d := capDuration max_len (row.getD 1 0)
  let e := capEnergy force_feasible maxP d (row.getD 2 0)
  { arrival := ((⌊a * periodsPerHour period⌋ : ℤ) : ℚ) + (day : ℚ) * periodsPerDay period
    departure := ((⌊(a + d) * periodsPerHour period⌋ : ℤ) : ℚ) + (day : ℚ) * periodsPerDay period
    requested_energy := e
    maximum_charging_power := maxP
    session_id := "session_" ++ toString i
    station_id := "station_" ++ toString i
    battery_energy := e }

/-- Modelled from the spec: conversion of a batch of sampled rows for one day,
threading the global session counter through the rows in order
(spec section 4.1 step c). -/
def convertRows (period maxP : ℚ) (max_len : Option ℚ) (force_feasible : Bool)
    (day : ℕ) : ℕ → List (List ℚ) → List EV
  | _, [] => []
  | i, r :: rs =>
      convertSession period maxP max_len force_feasible day i r ::
        convertRows period maxP max_len force_feasible day (i + 1) rs

/-- Modelled from the spec: the per-day generation loop. For each day in
order, a day with a zero session count is skipped (no sampler call, no
events) but still advances the day index; a nonzero count `n` invokes the
sampler with `n` and converts every returned row (spec section 4.1 step 3).
Returns the flat list of EVs together with the trace of sampler call
arguments, in call order. -/
def genLoop (sampler : ℕ → List (List ℚ)) (period maxP : ℚ) (max_len : Option ℚ)
    (force_feasible : Bool) : List ℕ → ℕ → ℕ → List EV × List ℕ
  | [], _, _ => ([], [])
  | n :: rest, day, i =>
      if n = 0 then
        genLoop sampler period maxP max_len force_feasible rest (day + 1) i
      else
        let rows := sampler n
        let evs := convertRows period maxP max_len force_feasible day i rows
        let r := genLoop sampler period maxP max_len force_feasible rest (day + 1) (i + rows.length)
        (evs ++ r.1, n :: r.2)

/-- Modelled from the spec: the flat, unsorted list of EVs produced by one
`generate_events` call (spec section 4.1). -/
def generatedEVs (sessions_per_day : List ℕ) (sampler : ℕ → List (List ℚ))
    (period maxP : ℚ) (max_len : Option ℚ) (force_feasible : Bool) : List EV :=
  (genLoop sampler period maxP max_len force_feasible sessions_per_day 0 0).1

/-- Modelled from the spec: the sequence of arguments with which one
`generate_events` call invokes the sampler capability, in call order
(spec sections 4.1 and 8, day-offsetting property). -/
def samplerCallTrace (sessions_per_day : List ℕ) (sampler : ℕ → List (List ℚ))
    (period maxP : ℚ) (max_len : Option ℚ) (force_feasible : Bool) : List ℕ :=
  (genLoop sampler period maxP max_len force_feasible sessions_per_day 0 0).2

/-- Modelled from the spec: stable insertion of a timestamped event into a
queue ordered by timestamp ascending, ties broken by insertion order
(spec section 3, event queue). -/
def insertByTime (x : ℚ × EV) : List (ℚ × EV) → List (ℚ × EV)
  | [] => [x]
  | y :: ys => if y.1 < x.1 then y :: insertByTime x ys else x :: y :: ys

/-- Modelled from the spec: insertion sort by timestamp, stable
(spec section 3, event queue ordering). -/
def sortByTime : List (ℚ × EV) → List (ℚ × EV)
  | [] => []
  | x :: xs => insertByTime x (sortByTime xs)

/-- Modelled from the spec: `StochasticEvents.generate_events`, absent from
src; behavior pinned by the tests in
`src/acnportal/acnsim/events/tests/test_stochastic_events.py`. The sampler
capability is an explicit argument; the returned queue is the list of
`(timestamp, EV)` arrival events ordered by timestamp, ties stable
(spec section 4.1). `voltage` is accepted but does not affect timing or
feasibility arithmetic, exactly as the spec states. The sampled batch is
consumed one row per session, in row order, which is the reading forced by
the expected arrivals in the tests. -/
def generate_events (sessions_per_day : List ℕ) (sampler : ℕ → List (List ℚ))
    (period voltage maxP : ℚ) (max_len : Option ℚ) (force_feasible : Bool) :
    List (ℚ × EV) :=
  let _ := voltage
  sortByTime ((generatedEVs sessions_per_day sampler period maxP max_len force_feasible).map
    (fun ev => (ev.arrival, ev)))

/-- Follows the claim and spec wording for the batch layout (spec section 3:
a 3-row, n-column matrix sliced by field): session `j` is read as the column
`(m[0][j], m[1][j], m[2][j])`. This definition exists only to be compared
with the row-per-session reading that the tests force. -/
def fieldSlices (m : List (List ℚ)) : List (List ℚ) :=
  (List.range (m.getD 0 []).length).map fun j =>
    [(m.getD 0 []).getD j 0, (m.getD 1 []).getD j 0, (m.getD 2 []).getD j 0]

/-- The fixed sampler used by the unit tests for the no-cap and max-len
scenarios: rows (6.5, 8, 10), (8.3, 6.05, 3), (10, 3, 6.6). -/
def sampler1 : ℕ → List (List ℚ) :=
  fun _ => [[6.5, 8, 10], [8.3, 6.05, 3], [10, 3, 6.6]]

/-- The fixed sampler used by the max-len plus force-feasible scenario of the
unit tests: rows (6.5, 8, 10), (8.3, 6.05, 3), (10, 3, 15). -/
def sampler2 : ℕ → List (List ℚ) :=
  fun _ => [[6.5, 8, 10], [8.3, 6.05, 3], [10, 3, 15]]

/-- A sampler returning a single contract-conforming session whose duration
(1/24 hour, i.e. 2.5 minutes) is shorter than one 5-minute period. -/
def samplerShort : ℕ → List (List ℚ) :=
  fun _ => [[0, 1/24, 1]]

/-- Modelled from the spec: a timestamp reduced to the data the extractor
reads, a calendar day index plus hour, minute and second of day
(spec section 4.2; the calendar date itself only enters through the day
index used for the cross-day difference). -/
structure Timestamp where
  dayIndex : ℤ
  hour : ℕ
  minute : ℕ
  second : ℕ
deriving DecidableEq, Inhabited

/-- Modelled from the spec: hour-of-day of a timestamp as a fractional value,
hours plus minutes over 60 plus seconds over 3600, independent of the
calendar date (spec section 4.2). -/
def hourOfDay (t : Timestamp) : ℚ :=
  (t.hour : ℚ) + (t.minute : ℚ) / 60 + (t.second : ℚ) / 3600

/-- Modelled from the spec: a timestamp expressed in fractional hours from the
epoch, used to take differences across days (spec section 4.2). -/
def totalHours (t : Timestamp) : ℚ :=
  24 * (t.dayIndex : ℚ) + hourOfDay t

/-- Modelled from the spec: a historical session record carrying a connection
timestamp, a disconnection timestamp and delivered energy (spec section 6). -/
structure SessionRecord where
  connectionTime : Timestamp
  disconnectTime : Timestamp
  kWhDelivered : ℚ
deriving DecidableEq, Inhabited

/-- Modelled from the spec: the row the extractor computes for one record,
in field order arrival hour, duration hours, energy (spec section 4.2). -/
def extractRow (s : SessionRecord) : List ℚ :=
  [hourOfDay s.connectionTime,
   totalHours s.disconnectTime - totalHours s.connectionTime,
   s.kWhDelivered]

/-- Modelled from the spec: `StochasticEvents.extract_training_data`, absent
from src; behavior pinned by `test_extract_training_data`. One row per
record, row order matching input order (spec section 4.2). -/
def extract_training_data (sessions : List SessionRecord) : List (List ℚ) :=
  sessions.map extractRow

/-- The three interface classes visible to `open_ai_algorithms.py`: a plain
simulator interface, `GymTrainedInterface`, and its subclass
`GymTrainingInterface`. -/
inductive IfaceKind where
  | plain
  | trained
  | training
deriving DecidableEq

/-- An interface value: its dynamic class together with an identity tag, so
that distinct interface objects wrapping the same simulator can be told
apart. -/
structure Iface where
  kind : IfaceKind
  tag : ℕ
deriving DecidableEq

/-- The check `isinstance(interface, GymTrainingInterface)`
(`open_ai_algorithms.py` line 120). -/
def isGymTrainingInterface (i : Iface) : Bool :=
  match i.kind with
  | IfaceKind.training => true
  | _ => false

/-- The check `isinstance(interface, GymTrainedInterface)`
(`open_ai_algorithms.py` line 160); `GymTrainingInterface` is a subclass of
`GymTrainedInterface`, so both kinds pass. -/
def isGymTrainedInterface (i : Iface) : Bool :=
  match i.kind with
  | IfaceKind.trained => true
  | IfaceKind.training => true
  | IfaceKind.plain => false

/-- The conversion `GymTrainingInterface.from_interface(interface)`
(`open_ai_algorithms.py` line 121): a new interface of the training class
built from the given one. -/
def gymTrainingInterfaceFrom (i : Iface) : Iface :=
  { kind := IfaceKind.training, tag := i.tag }

/-- The conversion `GymTrainedInterface.from_interface(interface)`
(`open_ai_algorithms.py` line 161): a new interface of the trained class
built from the given one. -/
def gymTrainedInterfaceFrom (i : Iface) : Iface :=
  { kind := IfaceKind.trained, tag := i.tag }

/-- The gym environment (`BaseSimEnv`) as `open_ai_algorithms.py` sees it: it
holds an interface, and the value `schedule` holds after
`action_to_schedule()` is abstracted as an uninterpreted payload. -/
structure SimEnv where
  interface : Iface
  schedule_out : ℕ
deriving DecidableEq

/-- The mutable state of a `GymTrainingAlgorithm`
(`open_ai_algorithms.py` lines 36 to 131): the interface stored by the base
class and the optional registered environment. -/
structure GymTrainingAlgorithmState where
  baseInterface : Option Iface
  envField : Option SimEnv
deriving DecidableEq

/-- The mutable state of a `GymTrainedAlgorithm`
(`open_ai_algorithms.py` lines 133 to 256): the interface stored by the base
class, the optional registered environment and the optional registered model
(abstracted to an identity tag). -/
structure GymTrainedAlgorithmState where
  baseInterface : Option Iface
  envField : Option SimEnv
  modelField : Option ℕ
  max_recompute : ℕ
deriving DecidableEq

/-- A Python exception as surfaced by the code under test. -/
inductive PyErr where
  | valueError (msg : String)
  | typeError (msg : String)
  | attributeError
deriving DecidableEq

/-- The message of the ValueError raised by the `model` property
(`open_ai_algorithms.py` lines 183 to 187). -/
def noModelMsg : String :=
  "No model has been registered yet. Please call register_model with an appropriate model before attempting to call model or schedule."

/-- The message of the ValueError raised by the `env` property
(`open_ai_algorithms.py` lines 215 to 219). -/
def noEnvMsg : String :=
  "No env has been registered yet. Please call register_env with an appropriate environment before attempting to call env or schedule."

/-- The message of the TypeError in the first guard of `schedule`
(`open_ai_algorithms.py` lines 239 to 242). -/
def modelEnvNoneMsg : String :=
  "A model and environment must be set to call the schedule function for GymAlgorithm."

/-- The message of the TypeError raised when the environment interface is a
`GymTrainingInterface` (`open_ai_algorithms.py` lines 244 to 248). -/
def trainingInterfaceMsg : String :=
  "GymAlgorithm environment interface is of type GymTrainingInterface. The environment must have an interface of type GymInterface to call schedule()."

/-- The `model` property of `GymTrainedAlgorithm`
(`open_ai_algorithms.py` lines 168 to 187): returns the registered model when
one is present (necessarily a non-None value), otherwise raises ValueError. -/
def modelProperty (s : GymTrainedAlgorithmState) : Except PyErr (Option ℕ) :=
  match s.modelField with
  | some m => Except.ok (some m)
  | none => Except.error (PyErr.valueError noModelMsg)

/-- The `env` property of `GymTrainedAlgorithm`
(`open_ai_algorithms.py` lines 201 to 219): returns the registered env when
one is present (necessarily a non-None value), otherwise raises ValueError. -/
def envProperty (s : GymTrainedAlgorithmState) : Except PyErr (Option SimEnv) :=
  match s.envField with
  | some e => Except.ok (some e)
  | none => Except.error (PyErr.valueError noEnvMsg)

/-- `GymTrainedAlgorithm.schedule` (`open_ai_algorithms.py` lines 232 to 256),
with Python evaluation order preserved: the guard first reads the `model`
property, short-circuits on the None comparison, then reads the `env`
property; raising propagates. The post-guard body re-reads `env`, checks the
interface class, and otherwise runs the model and returns the schedule the
environment computes, abstracted as `schedule_out`. -/
def schedule (s : GymTrainedAlgorithmState) : Except PyErr ℕ := do
  let mv ← modelProperty s
  let cond ←
    if mv.isNone then pure true
    else do
      let ev ← envProperty s
      pure ev.isNone
  if cond then
    Except.error (PyErr.typeError modelEnvNoneMsg)
  else do
    let ev ← envProperty s
    match ev with
    | none => Except.error PyErr.attributeError
    | some e =>
      if isGymTrainingInterface e.interface then
        Except.error (PyErr.typeError trainingInterfaceMsg)
      else
        Except.ok e.schedule_out

/-- Modelled from the spec: `BaseAlgorithm.register_interface` is not under
src; per the docstrings and call sites in `open_ai_algorithms.py` it stores
the argument as the algorithm interface. -/
def baseRegisterInterfaceTraining (s : GymTrainingAlgorithmState) (i : Iface) :
    GymTrainingAlgorithmState :=
  { s with baseInterface := some i }

/-- Modelled from the spec: `BaseAlgorithm.register_interface` is not under
src; per the docstrings and call sites in `open_ai_algorithms.py` it stores
the argument as the algorithm interface. -/
def baseRegisterInterfaceTrained (s : GymTrainedAlgorithmState) (i : Iface) :
    GymTrainedAlgorithmState :=
  { s with baseInterface := some i }

/-- `GymTrainingAlgorithm.register_interface`
(`open_ai_algorithms.py` lines 116 to 126): converts the argument to a
`GymTrainingInterface` unless it already is one, registers the converted
interface through the base class, then, when an env is registered, assigns
the original argument to the environment interface. -/
def trainingRegisterInterface (s : GymTrainingAlgorithmState) (interface : Iface) :
    GymTrainingAlgorithmState :=
  let gym_interface :=
    if isGymTrainingInterface interface then interface
    else gymTrainingInterfaceFrom interface
  let s1 := baseRegisterInterfaceTraining s gym_interface
  match s1.envField with
  | some e => { s1 with envField := some { e with interface := interface } }
  | none => s1

/-- `GymTrainedAlgorithm.register_interface`
(`open_ai_algorithms.py` lines 156 to 166): converts the argument to a
`GymTrainedInterface` unless it already is one, registers the converted
interface through the base class, then, when an env is registered, assigns
the original argument to the environment interface. -/
def trainedRegisterInterface (s : GymTrainedAlgorithmState) (interface : Iface) :
    GymTrainedAlgorithmState :=
  let gym_interface :=
    if isGymTrainedInterface interface then interface
    else gymTrainedInterfaceFrom interface
  let s1 := baseRegisterInterfaceTrained s gym_interface
  match s1.envField with
  | some e => { s1 with envField := some { e with interface := interface } }
  | none => s1

/-- The first historical record of the extractor unit test: connection at
00:00, disconnection at 08:30 the same day, 8.24 kWh delivered. -/
def testRecord : SessionRecord :=
  { connectionTime := { dayIndex := 0, hour := 0, minute := 0, second := 0 },
    disconnectTime := { dayIndex := 0, hour := 8, minute := 30, second := 0 },
    kWhDelivered := 8.24 }

/-- A plain interface used as a concrete registration argument. -/
def wIface : Iface := { kind := IfaceKind.plain, tag := 7 }

/-- A concrete environment holding a plain interface. -/
def wEnv : SimEnv := { interface := { kind := IfaceKind.plain, tag := 0 }, schedule_out := 0 }

/-- A concrete training-algorithm state with an env registered. -/
def wTrainingState : GymTrainingAlgorithmState :=
  { baseInterface := none, envField := some wEnv }

/-- A concrete trained-algorithm state with an env registered. -/
def wTrainedState : GymTrainedAlgorithmState :=
  { baseInterface := none, envField := some wEnv, modelField := none, max_recompute := 1 }

theorem mem_insertByTime {p x : ℚ × EV} {l : List (ℚ × EV)} :
    p ∈ insertByTime x l ↔ p = x ∨ p ∈ l := by
  induction l with
  | nil => simp [insertByTime]
  | cons y ys ih =>
      by_cases h : y.1 < x.1
      · simp only [insertByTime, if_pos h, List.mem_cons, ih]
        tauto
      · simp only [insertByTime, if_neg h, List.mem_cons]

theorem mem_sortByTime {p : ℚ × EV} {l : List (ℚ × EV)} :
    p ∈ sortByTime l ↔ p ∈ l := by
  induction l with
  | nil => simp [sortByTime]
  | cons x xs ih => simp [sortByTime, mem_insertByTime, ih]

theorem mem_convertRows {ev : EV} {period maxP : ℚ} {ml : Option ℚ} {ff : Bool}
    {day : ℕ} {rows : List (List ℚ)} : ∀ {i : ℕ},
    ev ∈ convertRows period maxP ml ff day i rows →
    ∃ j row, row ∈ rows ∧ ev = convertSession period maxP ml ff day j row := by
  induction rows with
  | nil => intro i h; simp [convertRows] at h
  | cons r rs ih =>
      intro i h
      rw [convertRows, List.mem_cons] at h
      rcases h with h | h
      · exact ⟨i, r, by simp, h⟩
      · obtain ⟨j, row, hrow, he⟩ := ih h
        exact ⟨j, row, by simp [hrow], he⟩

theorem mem_genLoop {ev : EV} {sampler : ℕ → List (List ℚ)} {period maxP : ℚ}
    {ml : Option ℚ} {ff : Bool} {spd : List ℕ} : ∀ {day i : ℕ},
    ev ∈ (genLoop sampler period maxP ml ff spd day i).1 →
    ∃ n row d j, n ≠ 0 ∧ row ∈ sampler n ∧
      ev = convertSession period maxP ml ff d j row := by
  induction spd with
  | nil => intro day i h; simp [genLoop] at h
  | cons n rest ih =>
      intro day i h
      by_cases hn : n = 0
      · rw [genLoop, if_pos hn] at h
        exact ih h
      · rw [genLoop, if_neg hn] at h
        simp only [List.mem_append] at h
        rcases h with h | h
        · obtain ⟨j, row, hrow, he⟩ := mem_convertRows h
          exact ⟨n, row, day, j, hn, hrow, he⟩
        · exact ih h

theorem mem_generate_events {p : ℚ × EV} {spd : List ℕ}
    {sampler : ℕ → List (List ℚ)} {period voltage maxP : ℚ} {ml : Option ℚ}
    {ff : Bool} :
    p ∈ generate_events spd sampler period voltage maxP ml ff →
    ∃ n row d j, n ≠ 0 ∧ row ∈ sampler n ∧
      p.2 = convertSession period maxP ml ff d j row := by
  intro h
  rw [generate_events, mem_sortByTime] at h
  obtain ⟨ev, hev, rfl⟩ := List.mem_map.mp h
  obtain ⟨n, row, d, j, hn, hrow, he⟩ := mem_genLoop hev
  exact ⟨n, row, d, j, hn, hrow, he⟩

theorem genLoop_trace (sampler : ℕ → List (List ℚ)) (period maxP : ℚ)
    (ml : Option ℚ) (ff : Bool) :
    ∀ (spd : List ℕ) (day i : ℕ),
    (genLoop sampler period maxP ml ff spd day i).2 = spd.filter (fun n => n != 0) := by
  intro spd
  induction spd with
  | nil => intro day i; simp [genLoop]
  | cons n rest ih =>
      intro day i
      by_cases hn : n = 0
      · subst hn
        rw [genLoop, if_pos rfl]
        simp [ih]
      · rw [genLoop, if_neg hn]
        simp [List.filter_cons, hn, ih]

theorem convertRows_length (period maxP : ℚ) (ml : Option ℚ) (ff : Bool)
    (day : ℕ) : ∀ (i : ℕ) (rows : List (List ℚ)),
    (convertRows period maxP ml ff day i rows).length = rows.length := by
  intro i rows
  induction rows generalizing i with
  | nil => simp [convertRows]
  | cons r rs ih => simp [convertRows, ih]

theorem convertRows_getD (period maxP : ℚ) (ml : Option ℚ) (ff : Bool)
    (day : ℕ) : ∀ (rows : List (List ℚ)) (i j : ℕ), j < rows.length →
    (convertRows period maxP ml ff day i rows).getD j default
      = convertSession period maxP ml ff day (i + j) (rows.getD j []) := by
  intro rows
  induction rows with
  | nil => intro i j hj; simp at hj
  | cons r rs ih =>
      intro i j hj
      cases j with
      | zero => simp [convertRows]
      | succ k =>
          rw [convertRows]
          simp only [List.getD_cons_succ]
          have := ih (i + 1) k (by simpa using hj)
          rw [show i + (k + 1) = i + 1 + k by omega]
          exact this

theorem periodsPerHour_pos {period : ℚ} (hp : 0 < period) :
    0 < periodsPerHour period := by
  rw [periodsPerHour]
  positivity

theorem convertSession_feasible (period maxP : ℚ) (ml : Option ℚ) (day j : ℕ)
    (row : List ℚ) (hp : 0 < period) (hP : 0 ≤ maxP) :
    (convertSession period maxP ml true day j row).requested_energy ≤
      maxP * ((convertSession period maxP ml true day j row).departure -
        (convertSession period maxP ml true day j row).arrival + 1) /
        periodsPerHour period := by
  have hpph : 0 < periodsPerHour period := periodsPerHour_pos hp
  set q := periodsPerHour period with hq
  set a := row.getD 0 0 with hA
  set d := capDuration ml (row.getD 1 0) with hD
  set e := row.getD 2 0 with hE
  simp only [convertSession, capEnergy, if_pos, ← hq, ← hA, ← hD, ← hE]
  have hcancel :
      (((⌊(a + d) * q⌋ : ℤ) : ℚ) + (day : ℚ) * periodsPerDay period) -
        (((⌊a * q⌋ : ℤ) : ℚ) + (day : ℚ) * periodsPerDay period) + 1
      = ((⌊(a + d) * q⌋ : ℤ) : ℚ) - ((⌊a * q⌋ : ℤ) : ℚ) + 1 := by ring
  rw [hcancel]
  have h1 : (a + d) * q < ((⌊(a + d) * q⌋ : ℤ) : ℚ) + 1 := Int.lt_floor_add_one _
  have h2 : ((⌊a * q⌋ : ℤ) : ℚ) ≤ a * q := Int.floor_le _
  have h3 : d * q ≤ ((⌊(a + d) * q⌋ : ℤ) : ℚ) - ((⌊a * q⌋ : ℤ) : ℚ) + 1 := by nlinarith
  have h4 : d ≤ (((⌊(a + d) * q⌋ : ℤ) : ℚ) - ((⌊a * q⌋ : ℤ) : ℚ) + 1) / q :=
    (le_div_iff₀ hpph).mpr h3
  calc min e (maxP * d) ≤ maxP * d := min_le_right _ _
    _ ≤ maxP * ((((⌊(a + d) * q⌋ : ℤ) : ℚ) - ((⌊a * q⌋ : ℤ) : ℚ) + 1) / q) :=
        mul_le_mul_of_nonneg_left h4 hP
    _ = maxP * ((((⌊(a + d) * q⌋ : ℤ) : ℚ) - ((⌊a * q⌋ : ℤ) : ℚ) + 1)) / q := by ring

theorem convertSession_ordering (period maxP : ℚ) (ml : Option ℚ) (ff : Bool)
    (day j : ℕ) (row : List ℚ) (hp : 0 < period) (ha : 0 ≤ row.getD 0 0)
    (hd : 0 ≤ capDuration ml (row.getD 1 0)) :
    0 ≤ (convertSession period maxP ml ff day j row).arrival ∧
      (convertSession period maxP ml ff day j row).arrival ≤
        (convertSession period maxP ml ff day j row).departure := by
  have hpph : 0 < periodsPerHour period := periodsPerHour_pos hp
  set q := periodsPerHour period with hq
  set a := row.getD 0 0 with hA
  set d := capDuration ml (row.getD 1 0) with hD
  have hppd : 0 ≤ periodsPerDay period := by
    rw [periodsPerDay, ← hq]
    positivity
  constructor
  · simp only [convertSession, ← hq, ← hA, ← hD]
    have : (0 : ℤ) ≤ ⌊a * q⌋ := Int.floor_nonneg.mpr (by positivity)
    have hcast : (0 : ℚ) ≤ ((⌊a * q⌋ : ℤ) : ℚ) := by exact_mod_cast this
    positivity
  · simp only [convertSession, ← hq, ← hA, ← hD]
    have hmono : ⌊a * q⌋ ≤ ⌊(a + d) * q⌋ := Int.floor_mono (by nlinarith)
    have hcast : ((⌊a * q⌋ : ℤ) : ℚ) ≤ ((⌊(a + d) * q⌋ : ℤ) : ℚ) := by exact_mod_cast hmono
    linarith

theorem convertSession_strict (period maxP : ℚ) (ml : Option ℚ) (ff : Bool)
    (day j : ℕ) (row : List ℚ)
    (h1 : 1 ≤ capDuration ml (row.getD 1 0) * periodsPerHour period) :
    (convertSession period maxP ml ff day j row).arrival <
      (convertSession period maxP ml ff day j row).departure := by
  set q := periodsPerHour period with hq
  set a := row.getD 0 0 with hA
  set d := capDuration ml (row.getD 1 0) with hD
  simp only [convertSession, ← hq, ← hA, ← hD]
  have hmono : ⌊a * q + 1⌋ ≤ ⌊(a + d) * q⌋ := Int.floor_mono (by nlinarith)
  rw [Int.floor_add_one] at hmono
  have hcast : ((⌊a * q⌋ : ℤ) : ℚ) + 1 ≤ ((⌊(a + d) * q⌋ : ℤ) : ℚ) := by exact_mod_cast hmono
  linarith

/-- C1: for period 5 (12 periods per hour), sessions_per_day = [3], voltage
208, max battery power 7, with the sampler fixed to the session triples
(6.5, 8, 10), (8.3, 6.05, 3), (10, 3, 6.6) and neither cap set,
generate_events returns a queue of exactly 3 arrival events whose EVs have
arrivals [78, 99, 120], departures [174, 172, 156] and requested energies
[10, 3, 6.6], in that order. -/
theorem claim_C1 :
    (generate_events [3] sampler1 5 208 7 none false).length = 3
    ∧ ((generate_events [3] sampler1 5 208 7 none false).map fun p => p.2.arrival)
        = [78, 99, 120]
    ∧ ((generate_events [3] sampler1 5 208 7 none false).map fun p => p.2.departure)
        = [174, 172, 156]
    ∧ ((generate_events [3] sampler1 5 208 7 none false).map fun p => p.2.requested_energy)
        = [10, 3, 6.6] := by
  refine ⟨?_, ?_, ?_, ?_⟩ <;>
  · simp only [generate_events, generatedEVs, genLoop, convertRows, convertSession, sortByTime,
      insertByTime, sampler1, capDuration, capEnergy, periodsPerHour, periodsPerDay, List.map]
    norm_num [insertByTime]

/-- C2 counterexample: on the very batch the unit test fixes, reading the
matrix by field slices (columns as sessions) yields arrivals [78, 96, 120],
while the generator behavior pinned by the test yields [78, 99, 120]; the
two disagree, so the generator does not slice the batch by field. -/
theorem claim_C2_cex :
    ((generate_events [3] sampler1 5 208 7 none false).map fun p => p.2.arrival)
        = [78, 99, 120]
    ∧ ((generate_events [3] (fun n => fieldSlices (sampler1 n)) 5 208 7 none false).map
          fun p => p.2.arrival) = [78, 96, 120]
    ∧ ((generate_events [3] (fun n => fieldSlices (sampler1 n)) 5 208 7 none false).map
          fun p => p.2.arrival)
        ≠ ((generate_events [3] sampler1 5 208 7 none false).map fun p => p.2.arrival) := by
  have h1 : ((generate_events [3] sampler1 5 208 7 none false).map fun p => p.2.arrival)
      = [78, 99, 120] := claim_C1.2.1
  have h2 : ((generate_events [3] (fun n => fieldSlices (sampler1 n)) 5 208 7 none false).map
      fun p => p.2.arrival) = [78, 96, 120] := by
    simp only [generate_events, generatedEVs, genLoop, convertRows, convertSession, sortByTime,
      insertByTime, sampler1, fieldSlices, capDuration, capEnergy, periodsPerHour, periodsPerDay,
      List.map, List.range, List.getD]
    norm_num [insertByTime]
  refine ⟨h1, h2, ?_⟩
  rw [h1, h2]
  intro h
  have := List.head_eq_of_cons_eq (List.tail_eq_of_cons_eq h)
  norm_num at this

/-- C2 amended: the sampled batch is an n-row, 3-column matrix with one row
per session; the generator recovers session j as row j of the batch (fields
in order arrival hour, duration hours, energy), threading the global session
counter through the rows in order. -/
theorem claim_C2 (period maxP : ℚ) (ml : Option ℚ) (ff : Bool) (day i : ℕ)
    (rows : List (List ℚ)) :
    (convertRows period maxP ml ff day i rows).length = rows.length
    ∧ ∀ j, j < rows.length →
        (convertRows period maxP ml ff day i rows).getD j default
          = convertSession period maxP ml ff day (i + j) (rows.getD j []) :=
  ⟨convertRows_length period maxP ml ff day i rows,
   fun j hj => convertRows_getD period maxP ml ff day rows i j hj⟩

/-- C2 amended, witness at the test batch: the event at position 1 is the
conversion of row 1. -/
theorem claim_C2_witness :
    (convertRows 5 7 none false 0 0 [[6.5, 8, 10], [8.3, 6.05, 3], [10, 3, 6.6]]).getD 1 default
      = convertSession 5 7 none false 0 (0 + 1)
          ([[6.5, 8, 10], [8.3, 6.05, 3], [10, 3, 6.6]].getD 1 []) :=
  (claim_C2 5 7 none false 0 0 [[6.5, 8, 10], [8.3, 6.05, 3], [10, 3, 6.6]]).2 1 (by norm_num)

/-- C3: when both max_len and force_feasible are supplied, the duration is
first capped to min(duration, max_len), the energy is then capped to
min(energy, max_battery_power times the capped duration), and the capped
duration is the one entering the departure computation; on the concrete
test scenario (period 5, power 7, max_len 1, triples (6.5, 8, 10),
(8.3, 6.05, 3), (10, 3, 15)) this gives departures [90, 111, 132] and
energies [7, 3, 7]. -/
theorem claim_C3 :
    (∀ (period maxP m : ℚ) (day i : ℕ) (a d e : ℚ),
        (convertSession period maxP (some m) true day i [a, d, e]).requested_energy
          = min e (maxP * min d m)
        ∧ (convertSession period maxP (some m) true day i [a, d, e]).departure
          = ((⌊(a + min d m) * periodsPerHour period⌋ : ℤ) : ℚ)
              + (day : ℚ) * periodsPerDay period)
    ∧ ((generate_events [3] sampler2 5 208 7 (some 1) true).map fun p => p.2.departure)
        = [90, 111, 132]
    ∧ ((generate_events [3] sampler2 5 208 7 (some 1) true).map fun p => p.2.requested_energy)
        = [7, 3, 7] := by
  refine ⟨fun period maxP m day i a d e => ⟨?_, ?_⟩, ?_, ?_⟩
  · simp [convertSession, capDuration, capEnergy]
  · simp [convertSession, capDuration, capEnergy]
  all_goals
  · simp only [generate_events, generatedEVs, genLoop, convertRows, convertSession, sortByTime,
      insertByTime, sampler2, capDuration, capEnergy, periodsPerHour, periodsPerDay, List.map]
    norm_num [insertByTime]

/-- C4: every converted session has arrival floor(a * 60 / p) plus the day
offset and departure floor((a + d) * 60 / p) plus the day offset, with d the
possibly capped duration and the floor taken of the sum after addition; on
the test triple (8.3, 6.05, 3) at 12 periods per hour the combined floor
gives 172 while flooring each term separately would give 171. -/
theorem claim_C4 :
    (∀ (period maxP : ℚ) (ml : Option ℚ) (ff : Bool) (day i : ℕ) (a d e : ℚ),
        (convertSession period maxP ml ff day i [a, d, e]).arrival
          = ((⌊a * (60 / period)⌋ : ℤ) : ℚ) + (day : ℚ) * (24 * (60 / period))
        ∧ (convertSession period maxP ml ff day i [a, d, e]).departure
          = ((⌊(a + capDuration ml d) * (60 / period)⌋ : ℤ) : ℚ)
              + (day : ℚ) * (24 * (60 / period)))
    ∧ (convertSession 5 7 none false 0 0 [8.3, 6.05, 3]).departure = 172
    ∧ ((⌊(8.3 : ℚ) * (60 / 5)⌋ + ⌊(6.05 : ℚ) * (60 / 5)⌋ : ℤ) : ℚ) = 171
    ∧ (convertSession 5 7 none false 0 0 [8.3, 6.05, 3]).departure
        ≠ ((⌊(8.3 : ℚ) * (60 / 5)⌋ + ⌊(6.05 : ℚ) * (60 / 5)⌋ : ℤ) : ℚ) := by
  refine ⟨fun period maxP ml ff day i a d e => ⟨?_, ?_⟩, ?_, ?_, ?_⟩
  · simp [convertSession, periodsPerHour, periodsPerDay]
  · simp [convertSession, periodsPerHour, periodsPerDay]
  · norm_num [convertSession, capDuration, capEnergy, periodsPerHour, periodsPerDay]
  · norm_num
  · norm_num [convertSession, capDuration, capEnergy, periodsPerHour, periodsPerDay]

/-- C5: a zero-session day causes no sampler call and no events but still
advances the day index; the sampler call trace is exactly the nonzero
session counts in day order (hence the sampler is never invoked with 0);
for sessions_per_day = [3, 0, 3] the sampler is invoked exactly twice with
3, and the second group of arrivals is offset by 2 periods-per-day, not 1. -/
theorem claim_C5 :
    (∀ (sampler : ℕ → List (List ℚ)) (period maxP : ℚ) (ml : Option ℚ) (ff : Bool)
        (spd : List ℕ) (day i : ℕ),
        genLoop sampler period maxP ml ff (0 :: spd) day i
          = genLoop sampler period maxP ml ff spd (day + 1) i)
    ∧ (∀ (sampler : ℕ → List (List ℚ)) (period maxP : ℚ) (ml : Option ℚ) (ff : Bool)
        (spd : List ℕ) (day i : ℕ),
        (genLoop sampler period maxP ml ff spd day i).2 = spd.filter (fun n => n != 0))
    ∧ samplerCallTrace [3, 0, 3] sampler1 5 7 none false = [3, 3]
    ∧ ((generate_events [3, 0, 3] sampler1 5 208 7 none false).map fun p => p.2.arrival)
        = [78, 99, 120, 654, 675, 696]
    ∧ (654 : ℚ) = 2 * periodsPerDay 5 + 78
    ∧ (654 : ℚ) ≠ 1 * periodsPerDay 5 + 78 := by
  refine ⟨?_, ?_, ?_, ?_, ?_, ?_⟩
  · intro sampler period maxP ml ff spd day i
    rw [genLoop, if_pos rfl]
  · intro sampler period maxP ml ff spd day i
    exact genLoop_trace sampler period maxP ml ff spd day i
  · rw [samplerCallTrace, genLoop_trace]
    rfl
  · simp only [generate_events, generatedEVs, genLoop, convertRows, convertSession, sortByTime,
      insertByTime, sampler1, capDuration, capEnergy, periodsPerHour, periodsPerDay, List.map]
    norm_num [insertByTime]
  · norm_num [periodsPerDay, periodsPerHour]
  · norm_num [periodsPerDay, periodsPerHour]

theorem capDuration_nonneg {ml : Option ℚ} {d : ℚ} (hd : 0 ≤ d)
    (hml : ∀ m, ml = some m → 0 ≤ m) : 0 ≤ capDuration ml d := by
  cases ml with
  | none => simpa [capDuration] using hd
  | some m => exact le_min hd (hml m rfl)

theorem extract_getD : ∀ (sessions : List SessionRecord) (j : ℕ), j < sessions.length →
    (extract_training_data sessions).getD j [] = extractRow (sessions.getD j default) := by
  intro sessions
  induction sessions with
  | nil => intro j hj; simp at hj
  | cons s ss ih =>
      intro j hj
      cases j with
      | zero => simp [extract_training_data]
      | succ k =>
          simp only [extract_training_data, List.map, List.getD_cons_succ]
          exact ih k (by simpa using hj)

/-- C8: the extractor returns one 3-entry row per record, in input order,
with each row being the fractional hour-of-day of the connection time, the
disconnection minus connection interval in fractional hours, and the
delivered energy unchanged; the record 00:00 to 08:30 with energy 8.24
yields [0, 8.5, 8.24]. -/
theorem claim_C8 :
    (∀ sessions : List SessionRecord,
        (extract_training_data sessions).length = sessions.length
        ∧ (∀ r ∈ extract_training_data sessions, r.length = 3)
        ∧ ∀ j, j < sessions.length →
            (extract_training_data sessions).getD j []
              = [hourOfDay (sessions.getD j default).connectionTime,
                 totalHours (sessions.getD j default).disconnectTime
                   - totalHours (sessions.getD j default).connectionTime,
                 (sessions.getD j default).kWhDelivered])
    ∧ extract_training_data [testRecord] = [[0, 8.5, 8.24]] := by
  constructor
  · intro sessions
    refine ⟨by simp [extract_training_data], ?_, ?_⟩
    · intro r hr
      obtain ⟨s, _, rfl⟩ := List.mem_map.mp hr
      rfl
    · intro j hj
      rw [extract_getD sessions j hj]
      rfl
  · norm_num [extract_training_data, extractRow, hourOfDay, totalHours, testRecord]

/-- C8 witness: the per-index row equation applied to the concrete one-record
input at index 0. -/
theorem claim_C8_witness :
    (extract_training_data [testRecord]).getD 0 []
      = [hourOfDay (([testRecord].getD 0 default).connectionTime),
         totalHours (([testRecord].getD 0 default).disconnectTime)
           - totalHours (([testRecord].getD 0 default).connectionTime),
         ([testRecord].getD 0 default).kWhDelivered] :=
  (claim_C8.1 [testRecord]).2.2 0 (by norm_num)

/-- C6 counterexample: with force_feasible set, the contract-conforming
sampled session (arrival 0, duration 1/24 hour, energy 1) at period 5 yields
requested energy 7/24 but departure equal to arrival, so the claimed bound
requested_energy at most power times (departure - arrival) / periods_per_hour
fails (7/24 is not at most 0). -/
theorem claim_C6_cex :
    ¬ (∀ p ∈ generate_events [1] samplerShort 5 208 7 none true,
        p.2.requested_energy ≤
          p.2.maximum_charging_power * (p.2.departure - p.2.arrival) / periodsPerHour 5) := by
  intro h
  have hq : generate_events [1] samplerShort 5 208 7 none true
      = [((convertSession 5 7 none true 0 0 [0, 1/24, 1]).arrival,
          convertSession 5 7 none true 0 0 [0, 1/24, 1])] := by
    simp [generate_events, generatedEVs, genLoop, samplerShort, convertRows, sortByTime,
      insertByTime]
  have h1 := h _ (by rw [hq]; exact List.mem_singleton_self _)
  norm_num [convertSession, capDuration, capEnergy, periodsPerHour, periodsPerDay] at h1

/-- C6 amended: with force_feasible set, every EV in the returned queue has
maximum charging power equal to the max_battery_power argument and requested
energy at most maximum_charging_power times
(departure - arrival + 1) / periods_per_hour, i.e. the feasibility bound
holds within the one-period floor-rounding tolerance the spec itself notes. -/
theorem claim_C6 (spd : List ℕ) (sampler : ℕ → List (List ℚ))
    (period voltage maxP : ℚ) (ml : Option ℚ)
    (hp : 0 < period) (hP : 0 ≤ maxP) :
    ∀ p ∈ generate_events spd sampler period voltage maxP ml true,
      p.2.maximum_charging_power = maxP ∧
      p.2.requested_energy ≤
        maxP * (p.2.departure - p.2.arrival + 1) / periodsPerHour period := by
  intro p hpq
  obtain ⟨n, row, d, j, hn, hrow, he⟩ := mem_generate_events hpq
  rw [he]
  exact ⟨rfl, convertSession_feasible period maxP ml d j row hp hP⟩

/-- C6 witness: the amended bound evaluated on the short-session scenario. -/
theorem claim_C6_witness :
    (convertSession 5 7 none true 0 0 [0, 1/24, 1]).maximum_charging_power = 7
    ∧ (convertSession 5 7 none true 0 0 [0, 1/24, 1]).requested_energy ≤
        7 * ((convertSession 5 7 none true 0 0 [0, 1/24, 1]).departure
          - (convertSession 5 7 none true 0 0 [0, 1/24, 1]).arrival + 1) / periodsPerHour 5 :=
  claim_C6 [1] samplerShort 5 208 7 none (by norm_num) (by norm_num)
    ((convertSession 5 7 none true 0 0 [0, 1/24, 1]).arrival,
      convertSession 5 7 none true 0 0 [0, 1/24, 1])
    (by simp [generate_events, generatedEVs, genLoop, samplerShort, convertRows, sortByTime,
      insertByTime])

/-- C7 counterexample: the contract-conforming sampled session (arrival hour
0 in [0, 24), duration 1/24 > 0, energy 1 > 0) at period 5 produces an EV
with arrival 0 and departure 0, refuting strict departure ordering. -/
theorem claim_C7_cex :
    ¬ (∀ p ∈ generate_events [1] samplerShort 5 208 7 none false,
        0 ≤ p.2.arrival ∧ p.2.arrival < p.2.departure) := by
  intro h
  have hq : generate_events [1] samplerShort 5 208 7 none false
      = [((convertSession 5 7 none false 0 0 [0, 1/24, 1]).arrival,
          convertSession 5 7 none false 0 0 [0, 1/24, 1])] := by
    simp [generate_events, generatedEVs, genLoop, samplerShort, convertRows, sortByTime,
      insertByTime]
  have h1 := h _ (by rw [hq]; exact List.mem_singleton_self _)
  norm_num [convertSession, capDuration, capEnergy, periodsPerHour, periodsPerDay] at h1

/-- C7 amended: under the sampler contract (nonnegative arrival hour,
positive duration, max_len nonnegative when supplied, positive period),
every EV in the returned queue satisfies 0 ≤ arrival ≤ departure; departure
is strictly greater than arrival whenever every capped duration spans at
least one full period, and the short-session counterexample shows strictness
can fail below one period. -/
theorem claim_C7 (spd : List ℕ) (sampler : ℕ → List (List ℚ))
    (period voltage maxP : ℚ) (ml : Option ℚ) (ff : Bool)
    (hp : 0 < period)
    (hml : ∀ m, ml = some m → 0 ≤ m)
    (hrows : ∀ n row, row ∈ sampler n → 0 ≤ row.getD 0 0 ∧ 0 < row.getD 1 0) :
    (∀ p ∈ generate_events spd sampler period voltage maxP ml ff,
        0 ≤ p.2.arrival ∧ p.2.arrival ≤ p.2.departure)
    ∧ ((∀ n row, row ∈ sampler n →
          1 ≤ capDuration ml (row.getD 1 0) * periodsPerHour period) →
        ∀ p ∈ generate_events spd sampler period voltage maxP ml ff,
          p.2.arrival < p.2.departure) := by
  constructor
  · intro p hpq
    obtain ⟨n, row, d, j, hn, hrow, he⟩ := mem_generate_events hpq
    rw [he]
    obtain ⟨ha, hd⟩ := hrows n row hrow
    exact convertSession_ordering period maxP ml ff d j row hp ha
      (capDuration_nonneg (le_of_lt hd) hml)
  · intro hstrict p hpq
    obtain ⟨n, row, d, j, hn, hrow, he⟩ := mem_generate_events hpq
    rw [he]
    exact convertSession_strict period maxP ml ff d j row (hstrict n row hrow)

/-- C7 witness: ordering and strictness evaluated on the first session of
the literal test scenario. -/
theorem claim_C7_witness :
    (0 ≤ (convertSession 5 7 none false 0 0 [6.5, 8, 10]).arrival
      ∧ (convertSession 5 7 none false 0 0 [6.5, 8, 10]).arrival
          ≤ (convertSession 5 7 none false 0 0 [6.5, 8, 10]).departure)
    ∧ (convertSession 5 7 none false 0 0 [6.5, 8, 10]).arrival
        < (convertSession 5 7 none false 0 0 [6.5, 8, 10]).departure := by
  have h := claim_C7 [3] sampler1 5 208 7 none false (by norm_num)
    (by intro m hm; cases hm)
    (by
      intro n row hrow
      simp only [sampler1, List.mem_cons, List.not_mem_nil, or_false] at hrow
      rcases hrow with rfl | rfl | rfl <;> norm_num)
  have hmem : ((convertSession 5 7 none false 0 0 [6.5, 8, 10]).arrival,
      convertSession 5 7 none false 0 0 [6.5, 8, 10])
      ∈ generate_events [3] sampler1 5 208 7 none false := by
    simp only [generate_events, generatedEVs, genLoop, sampler1, convertRows, sortByTime,
      insertByTime, convertSession, capDuration, capEnergy, periodsPerHour, periodsPerDay,
      List.map]
    norm_num [insertByTime]
  exact ⟨h.1 _ hmem,
    h.2 (by
      intro n row hrow
      simp only [sampler1, List.mem_cons, List.not_mem_nil, or_false] at hrow
      rcases hrow with rfl | rfl | rfl <;> norm_num [capDuration, periodsPerHour]) _ hmem⟩

theorem schedule_eq (s : GymTrainedAlgorithmState) :
    schedule s =
      match s.modelField with
      | none => Except.error (PyErr.valueError noModelMsg)
      | some _ =>
        match s.envField with
        | none => Except.error (PyErr.valueError noEnvMsg)
        | some e =>
          if isGymTrainingInterface e.interface then
            Except.error (PyErr.typeError trainingInterfaceMsg)
          else
            Except.ok e.schedule_out := by
  obtain ⟨bi, env, model, mr⟩ := s
  cases model <;> cases env <;> rfl

/-- C9: the TypeError branch guarded by the None comparison in
GymTrainedAlgorithm.schedule is unreachable: when no model (respectively no
env) is registered, reading the corresponding property raises ValueError
before the comparison is evaluated, and when both are registered the
properties return non-None values, so schedule never produces that
TypeError. -/
theorem claim_C9 (s : GymTrainedAlgorithmState) :
    schedule s ≠ Except.error (PyErr.typeError modelEnvNoneMsg)
    ∧ (s.modelField = none →
        schedule s = Except.error (PyErr.valueError noModelMsg))
    ∧ (∀ m, s.modelField = some m → s.envField = none →
        schedule s = Except.error (PyErr.valueError noEnvMsg)) := by
  rw [schedule_eq]
  obtain ⟨bi, env, model, mr⟩ := s
  cases model with
  | none =>
      refine ⟨?_, fun _ => rfl, ?_⟩
      · intro h
        exact absurd (Except.error.inj h) (by simp [modelEnvNoneMsg, noModelMsg])
      · intro m hm
        cases hm
  | some m =>
      cases env with
      | none =>
          refine ⟨?_, ?_, fun m2 _ _ => rfl⟩
          · intro h
            exact absurd (Except.error.inj h) (by simp [modelEnvNoneMsg, noEnvMsg])
          · intro hc
            cases hc
      | some e =>
          refine ⟨?_, ?_, ?_⟩
          · by_cases hti : isGymTrainingInterface e.interface
            · simp only [hti, if_true]
              intro h
              exact absurd (Except.error.inj h)
                (by simp [modelEnvNoneMsg, trainingInterfaceMsg])
            · simp only [hti, if_false, Bool.false_eq_true]
              intro h
              cases h
          · intro hc
            cases hc
          · intro m2 _ hc
            cases hc

/-- C9 witness: with nothing registered, schedule raises the no-model
ValueError and not the guarded TypeError; with only a model registered it
raises the no-env ValueError. -/
theorem claim_C9_witness :
    schedule { baseInterface := none, envField := none, modelField := none, max_recompute := 1 }
        = Except.error (PyErr.valueError noModelMsg)
    ∧ schedule { baseInterface := none, envField := none, modelField := some 0, max_recompute := 1 }
        = Except.error (PyErr.valueError noEnvMsg) :=
  ⟨(claim_C9 _).2.1 rfl, (claim_C9 _).2.2 0 rfl rfl⟩

/-- C10: registering a non-gym interface on a gym algorithm with an env
already registered stores the converted gym interface as the algorithm
interface but assigns the original unconverted argument, which differs from
the converted one, to the environment interface; this holds for the
training variant and for the trained variant alike. -/
theorem claim_C10 :
    (∀ (s : GymTrainingAlgorithmState) (e : SimEnv) (i : Iface),
        s.envField = some e → isGymTrainingInterface i = false →
        (trainingRegisterInterface s i).baseInterface = some (gymTrainingInterfaceFrom i)
        ∧ (trainingRegisterInterface s i).envField = some { e with interface := i }
        ∧ i ≠ gymTrainingInterfaceFrom i)
    ∧ (∀ (s : GymTrainedAlgorithmState) (e : SimEnv) (i : Iface),
        s.envField = some e → isGymTrainedInterface i = false →
        (trainedRegisterInterface s i).baseInterface = some (gymTrainedInterfaceFrom i)
        ∧ (trainedRegisterInterface s i).envField = some { e with interface := i }
        ∧ i ≠ gymTrainedInterfaceFrom i) := by
  constructor
  · intro s e i henv hni
    refine ⟨?_, ?_, ?_⟩
    · simp [trainingRegisterInterface, baseRegisterInterfaceTraining, hni, henv]
    · simp [trainingRegisterInterface, baseRegisterInterfaceTraining, hni, henv]
    · intro heq
      have hT : isGymTrainingInterface (gymTrainingInterfaceFrom i) = true := rfl
      rw [← heq, hni] at hT
      cases hT
  · intro s e i henv hni
    refine ⟨?_, ?_, ?_⟩
    · simp [trainedRegisterInterface, baseRegisterInterfaceTrained, hni, henv]
    · simp [trainedRegisterInterface, baseRegisterInterfaceTrained, hni, henv]
    · intro heq
      have hT : isGymTrainedInterface (gymTrainedInterfaceFrom i) = true := rfl
      rw [← heq, hni] at hT
      cases hT

/-- C10 witness: a plain interface registered on each algorithm variant with
an env present. -/
theorem claim_C10_witness :
    ((trainingRegisterInterface wTrainingState wIface).baseInterface
        = some (gymTrainingInterfaceFrom wIface)
      ∧ (trainingRegisterInterface wTrainingState wIface).envField
          = some { wEnv with interface := wIface }
      ∧ wIface ≠ gymTrainingInterfaceFrom wIface)
    ∧ ((trainedRegisterInterface wTrainedState wIface).baseInterface
        = some (gymTrainedInterfaceFrom wIface)
      ∧ (trainedRegisterInterface wTrainedState wIface).envField
          = some { wEnv with interface := wIface }
      ∧ wIface ≠ gymTrainedInterfaceFrom wIface) :=
  ⟨claim_C10.1 wTrainingState wEnv wIface rfl rfl,
   claim_C10.2 wTrainedState wEnv wIface rfl rfl⟩

end ACN
